import Mathlib

/-!
Verification of the bloom_engine repository (src/main.cpp): a standard
Bloom filter and a sandwiched learned Bloom filter (two Bloom filters
around an external binary classifier).

Shallow embedding conventions:
* The base hash `std::hash<std::string>` is implementation-defined, so
  every definition is parametrized by an arbitrary `hasher : String → Nat`.
* The classifier `evaluate_model` lives in `decision_tree.h`, outside the
  core source; per its external contract (a deterministic boolean function
  of the three features) it is an arbitrary parameter
  `model : Nat → Nat → Nat → Bool`.
* The bit vector `std::vector<bool>` becomes `List Bool`; writing a bit is
  `List.set` (out-of-range writes, undefined behaviour in C++, are no-ops
  here, and out-of-range reads yield `false` via `List.getD`).
* C++ `int` sizes and counts become `Nat`; the hash computation
  `hasher(item + to_string(seed)) % size` is `Nat` arithmetic.
* The glibc `rand()` stream used by the benchmark's population loop is an
  arbitrary parameter `randSeq : Nat → Nat` giving the value returned by
  the i-th call.
-/

/-- The seeded hash of `StandardBloomFilter::hash` (main.cpp:16-19): the
base string hash of `item` with the decimal form of `seed` appended,
reduced modulo `size`. -/
def sbfHash (hasher : String → Nat) (size : Nat) (item : String) (seed : Nat) : Nat :=
  hasher (item ++ toString seed) % size

/-- State of a `StandardBloomFilter` (main.cpp:11-32). -/
structure StandardBloomFilter where
  bit_array : List Bool
  size : Nat
  num_hashes : Nat
  deriving Repr, DecidableEq

namespace StandardBloomFilter

/-- The constructor `StandardBloomFilter(int s, int k)` (main.cpp:21): it
records the parameters and resizes the bit array to `s` zeros, performing
no validation of `s` or `k`. -/
def mkFilter (s k : Nat) : StandardBloomFilter :=
  { bit_array := List.replicate s false, size := s, num_hashes := k }

/-- Set every bit at the given indices to 1 (the loop of `insert`). -/
def setAll (b : List Bool) (idxs : List Nat) : List Bool :=
  idxs.foldl (fun acc j => acc.set j true) b

/-- The indices touched by `insert` and `possibly_contains` for `item`:
`hash(item, i)` for each seed `i` in `[0, num_hashes)`. -/
def hashIndices (hasher : String → Nat) (f : StandardBloomFilter) (item : String) :
    List Nat :=
  (List.range f.num_hashes).map (fun i => sbfHash hasher f.size item i)

/-- The member function `insert(item)` (main.cpp:22-24): for each seed
`i < num_hashes`, set the bit at `hash(item, i)`. -/
def insert (hasher : String → Nat) (f : StandardBloomFilter) (item : String) :
    StandardBloomFilter :=
  { f with bit_array := setAll f.bit_array (hashIndices hasher f item) }

/-- The member function `possibly_contains(item)` (main.cpp:25-30): true
iff the bit at `hash(item, i)` is set for every seed `i < num_hashes`. -/
def possibly_contains (hasher : String → Nat) (f : StandardBloomFilter) (item : String) :
    Bool :=
  (List.range f.num_hashes).all
    (fun i => f.bit_array.getD (sbfHash hasher f.size item i) false)

/-- The member function `get_memory_bits()` (main.cpp:31): the configured
size, independent of the bits' contents. -/
def get_memory_bits (f : StandardBloomFilter) : Nat := f.size

/-- Well-formedness established by the constructor for positive sizes: the
bit array has exactly `size` entries and `size` is positive. Every filter
reachable from a valid construction satisfies this. -/
def Wf (f : StandardBloomFilter) : Prop :=
  f.bit_array.length = f.size ∧ 0 < f.size

end StandardBloomFilter

/-- State of a `SandwichedLearnedBloomFilter` (main.cpp:35-67): the two
component Bloom filters L1 and L3. -/
structure SandwichedLearnedBloomFilter where
  L1_filter : StandardBloomFilter
  L3_filter : StandardBloomFilter
  deriving Repr, DecidableEq

namespace SandwichedLearnedBloomFilter

/-- The constructor (main.cpp:47-48). -/
def mkSandwich (L1_size L1_hashes L3_size L3_hashes : Nat) :
    SandwichedLearnedBloomFilter :=
  { L1_filter := StandardBloomFilter.mkFilter L1_size L1_hashes,
    L3_filter := StandardBloomFilter.mkFilter L3_size L3_hashes }

/-- The member function `extract_features` (main.cpp:39-45): `f0` is the
length, `f1` the number of digit characters, `f2` the number of hyphen
characters. -/
def extract_features (item : String) : Nat × Nat × Nat :=
  (item.length, item.toList.countP (fun c => c.isDigit),
   item.toList.countP (fun c => c = '-'))

/-- The member function `insert_L1(item)` (main.cpp:50). -/
def insert_L1 (hasher : String → Nat) (st : SandwichedLearnedBloomFilter)
    (item : String) : SandwichedLearnedBloomFilter :=
  { st with L1_filter := st.L1_filter.insert hasher item }

/-- The member function `insert_L3(item)` (main.cpp:51). -/
def insert_L3 (hasher : String → Nat) (st : SandwichedLearnedBloomFilter)
    (item : String) : SandwichedLearnedBloomFilter :=
  { st with L3_filter := st.L3_filter.insert hasher item }

/-- The member function `query(item)` (main.cpp:53-61): return false when
the L1 check fails; otherwise extract features and trust a positive
classifier verdict; otherwise fall through to the L3 check. -/
def query (hasher : String → Nat) (model : Nat → Nat → Nat → Bool)
    (st : SandwichedLearnedBloomFilter) (item : String) : Bool :=
  if !(st.L1_filter.possibly_contains hasher item) then false
  else if model (extract_features item).1 (extract_features item).2.1
      (extract_features item).2.2 then true
  else st.L3_filter.possibly_contains hasher item

/-- The member function `get_memory_bits()` (main.cpp:63-66): the sum of
the two components' sizes; the classifier contributes nothing. -/
def get_memory_bits (st : SandwichedLearnedBloomFilter) : Nat :=
  st.L1_filter.get_memory_bits + st.L3_filter.get_memory_bits

/-- Well-formedness of both component filters. -/
def Wf (st : SandwichedLearnedBloomFilter) : Prop :=
  st.L1_filter.Wf ∧ st.L3_filter.Wf

end SandwichedLearnedBloomFilter

/-- The population of the sandwiched filter in `main` (main.cpp:83-88):
each url is inserted into L1, and into L3 exactly when the value of the
i-th `rand()` call satisfies `rand() % 100 < 10` — a condition independent
of the classifier. (The parallel population of the standalone standard
filter in the same loop is a separate object and is omitted.) -/
def populateMain (hasher : String → Nat) (randSeq : Nat → Nat)
    (st : SandwichedLearnedBloomFilter) (urls : List String) :
    SandwichedLearnedBloomFilter :=
  (urls.enum).foldl
    (fun s p =>
      let s1 := s.insert_L1 hasher p.2
      if randSeq p.1 % 100 < 10 then s1.insert_L3 hasher p.2 else s1)
    st

/-- One step of the insertion protocol of spec §4.3 for a true-set key:
`insert_L1`, and `insert_L3` exactly when the classifier on the key's
extracted features returns a negative prediction. -/
def protocolStep (hasher : String → Nat) (model : Nat → Nat → Nat → Bool)
    (s : SandwichedLearnedBloomFilter) (key : String) :
    SandwichedLearnedBloomFilter :=
  let s1 := s.insert_L1 hasher key
  if model (SandwichedLearnedBloomFilter.extract_features key).1
      (SandwichedLearnedBloomFilter.extract_features key).2.1
      (SandwichedLearnedBloomFilter.extract_features key).2.2 then s1
  else s1.insert_L3 hasher key

/-- The insertion protocol of spec §4.3 applied to a list of true-set
keys. -/
def populateProtocol (hasher : String → Nat) (model : Nat → Nat → Nat → Bool)
    (st : SandwichedLearnedBloomFilter) (keys : List String) :
    SandwichedLearnedBloomFilter :=
  keys.foldl (protocolStep hasher model) st

/-- Facts about a key that make `query` answer true: its L1 bits are set,
and its L3 bits are set whenever the classifier is negative on it. -/
def GoodFor (hasher : String → Nat) (model : Nat → Nat → Nat → Bool)
    (st : SandwichedLearnedBloomFilter) (key : String) : Prop :=
  st.L1_filter.possibly_contains hasher key = true ∧
  (model (SandwichedLearnedBloomFilter.extract_features key).1
      (SandwichedLearnedBloomFilter.extract_features key).2.1
      (SandwichedLearnedBloomFilter.extract_features key).2.2 = false →
    st.L3_filter.possibly_contains hasher key = true)

/-- A concrete base hash used only to instantiate witnesses and
counterexamples. -/
def egHasher (s : String) : Nat := s.length

/-- A concrete classifier that always predicts negative, used only to
instantiate the divergence theorem for the benchmark population loop. -/
def egModelNeg : Nat → Nat → Nat → Bool := fun _ _ _ => false

/-- A concrete classifier used only to instantiate witnesses: predicts
member exactly for even-length keys. -/
def egModelEven : Nat → Nat → Nat → Bool := fun f0 _ _ => decide (f0 % 2 = 0)

/-- A concrete `rand()` stream used only to instantiate the divergence
theorem: every call returns 50, so `rand() % 100 < 10` never holds. -/
def egRand : Nat → Nat := fun _ => 50

namespace StandardBloomFilter

theorem getD_set_true_mono (b : List Bool) (i j : Nat) (h : b.getD j false = true) :
    (b.set i true).getD j false = true := by
  induction b generalizing i j with
  | nil => simp at h
  | cons a t ih =>
    cases i with
    | zero =>
      cases j with
      | zero => simp
      | succ j => simpa using h
    | succ i =>
      cases j with
      | zero => simpa using h
      | succ j =>
        simp only [List.getD_cons_succ] at h
        simp only [List.set_cons_succ, List.getD_cons_succ]
        exact ih i j h

theorem getD_set_true_self (b : List Bool) (i : Nat) (h : i < b.length) :
    (b.set i true).getD i false = true := by
  induction b generalizing i with
  | nil => simp at h
  | cons a t ih =>
    cases i with
    | zero => simp
    | succ i =>
      simp only [List.set_cons_succ, List.getD_cons_succ]
      exact ih i (by simp at h; omega)

theorem set_true_noop (b : List Bool) (i : Nat)
    (h : b.getD i false = true ∨ b.length ≤ i) : b.set i true = b := by
  induction b generalizing i with
  | nil => rfl
  | cons a t ih =>
    cases i with
    | zero =>
      rcases h with h | h
      · simp only [List.getD_cons_zero] at h
        simp [h]
      · simp at h
    | succ i =>
      have h' : t.getD i false = true ∨ t.length ≤ i := by
        rcases h with h | h
        · exact Or.inl (by simpa using h)
        · exact Or.inr (by simp at h; omega)
      rw [List.set_cons_succ, ih i h']

theorem length_setAll (idxs : List Nat) (b : List Bool) :
    (setAll b idxs).length = b.length := by
  induction idxs generalizing b with
  | nil => rfl
  | cons i t ih =>
    show (setAll (b.set i true) t).length = b.length
    rw [ih, List.length_set]

theorem getD_setAll_mono (idxs : List Nat) (b : List Bool) (j : Nat)
    (h : b.getD j false = true) : (setAll b idxs).getD j false = true := by
  induction idxs generalizing b with
  | nil => exact h
  | cons i t ih =>
    show (setAll (b.set i true) t).getD j false = true
    exact ih _ (getD_set_true_mono b i j h)

theorem getD_setAll_mem (idxs : List Nat) : ∀ (b : List Bool) (j : Nat),
    j ∈ idxs → j < b.length → (setAll b idxs).getD j false = true := by
  induction idxs with
  | nil => intro b j hj _; simp at hj
  | cons i t ih =>
    intro b j hj hlen
    show (setAll (b.set i true) t).getD j false = true
    rcases List.mem_cons.mp hj with h | h
    · subst h
      exact getD_setAll_mono t _ j (getD_set_true_self b j hlen)
    · exact ih _ j h (by rw [List.length_set]; exact hlen)

theorem setAll_noop (idxs : List Nat) : ∀ (b : List Bool),
    (∀ j ∈ idxs, b.getD j false = true ∨ b.length ≤ j) → setAll b idxs = b := by
  induction idxs with
  | nil => intro b _; rfl
  | cons i t ih =>
    intro b h
    show setAll (b.set i true) t = b
    rw [set_true_noop b i (h i (List.mem_cons_self i t))]
    exact ih b (fun j hj => h j (List.mem_cons_of_mem i hj))

theorem setAll_setAll (idxs : List Nat) (b : List Bool) :
    setAll (setAll b idxs) idxs = setAll b idxs := by
  apply setAll_noop
  intro j hj
  by_cases hlen : j < b.length
  · exact Or.inl (getD_setAll_mem idxs b j hj hlen)
  · exact Or.inr (by rw [length_setAll]; omega)

theorem count_set_true (b : List Bool) (i : Nat) :
    b.count true ≤ (b.set i true).count true := by
  induction b generalizing i with
  | nil => simp
  | cons a t ih =>
    cases i with
    | zero =>
      show List.count true (a :: t) ≤ List.count true (true :: t)
      cases a <;> simp [List.count_cons]
    | succ i =>
      rw [List.set_cons_succ]
      simp only [List.count_cons]
      exact Nat.add_le_add_right (ih i) _

theorem count_setAll (idxs : List Nat) (b : List Bool) :
    b.count true ≤ (setAll b idxs).count true := by
  induction idxs generalizing b with
  | nil => exact Nat.le_refl _
  | cons i t ih =>
    show b.count true ≤ (setAll (b.set i true) t).count true
    exact Nat.le_trans (count_set_true b i) (ih _)

theorem insert_length (hasher : String → Nat) (f : StandardBloomFilter) (item : String) :
    (f.insert hasher item).bit_array.length = f.bit_array.length :=
  length_setAll _ _

theorem contains_insert_self (hasher : String → Nat) (f : StandardBloomFilter)
    (item : String) (hwf : f.bit_array.length = f.size) (hs : 0 < f.size) :
    (f.insert hasher item).possibly_contains hasher item = true := by
  obtain ⟨b, s, k⟩ := f
  simp only [insert, possibly_contains, hashIndices, List.all_eq_true] at *
  intro i hi
  apply getD_setAll_mem
  · exact List.mem_map.mpr ⟨i, hi, rfl⟩
  · rw [hwf]
    exact Nat.mod_lt _ hs

theorem contains_mono (hasher : String → Nat) (f : StandardBloomFilter)
    (item other : String) (h : f.possibly_contains hasher item = true) :
    (f.insert hasher other).possibly_contains hasher item = true := by
  obtain ⟨b, s, k⟩ := f
  simp only [insert, possibly_contains, List.all_eq_true] at h ⊢
  intro i hi
  exact getD_setAll_mono _ _ _ (h i hi)

theorem contains_foldl_mono (hasher : String → Nat) (rest : List String) :
    ∀ (f : StandardBloomFilter) (item : String),
    f.possibly_contains hasher item = true →
    (rest.foldl (fun g x => g.insert hasher x) f).possibly_contains hasher item = true := by
  induction rest with
  | nil => intro f item h; exact h
  | cons x t ih =>
    intro f item h
    exact ih _ item (contains_mono hasher f item x h)

theorem wf_insert (hasher : String → Nat) {f : StandardBloomFilter} (h : f.Wf)
    (item : String) : (f.insert hasher item).Wf :=
  ⟨by rw [insert_length, h.1]; rfl, h.2⟩

theorem getD_replicate_false (s j : Nat) :
    (List.replicate s false).getD j false = false := by
  induction s generalizing j with
  | zero => rfl
  | succ n ih =>
    cases j with
    | zero => rfl
    | succ j =>
      rw [List.replicate_succ, List.getD_cons_succ]
      exact ih j

theorem foldl_insert_size (hasher : String → Nat) (keys : List String) :
    ∀ f : StandardBloomFilter,
    (keys.foldl (fun g x => g.insert hasher x) f).size = f.size := by
  induction keys with
  | nil => intro f; rfl
  | cons x t ih => intro f; exact ih _

end StandardBloomFilter

namespace SandwichedLearnedBloomFilter

theorem protocolStep_L1 (hasher : String → Nat) (model : Nat → Nat → Nat → Bool)
    (s : SandwichedLearnedBloomFilter) (key : String) :
    (protocolStep hasher model s key).L1_filter = s.L1_filter.insert hasher key := by
  unfold protocolStep
  by_cases hm : model (extract_features key).1 (extract_features key).2.1
      (extract_features key).2.2 = true
  · simp [hm, insert_L1]
  · simp [hm, insert_L1, insert_L3]

theorem protocolStep_L3 (hasher : String → Nat) (model : Nat → Nat → Nat → Bool)
    (s : SandwichedLearnedBloomFilter) (key : String) :
    (protocolStep hasher model s key).L3_filter = s.L3_filter ∨
    (protocolStep hasher model s key).L3_filter = s.L3_filter.insert hasher key := by
  unfold protocolStep
  by_cases hm : model (extract_features key).1 (extract_features key).2.1
      (extract_features key).2.2 = true
  · exact Or.inl (by simp [hm, insert_L1])
  · exact Or.inr (by simp [hm, insert_L1, insert_L3])

theorem goodFor_query (hasher : String → Nat) (model : Nat → Nat → Nat → Bool)
    (st : SandwichedLearnedBloomFilter) (key : String)
    (h : GoodFor hasher model st key) : query hasher model st key = true := by
  unfold query
  rw [h.1]
  by_cases hm : model (extract_features key).1 (extract_features key).2.1
      (extract_features key).2.2 = true
  · simp [hm]
  · simp [hm, h.2 (by simpa using hm)]

theorem goodFor_step (hasher : String → Nat) (model : Nat → Nat → Nat → Bool)
    (s : SandwichedLearnedBloomFilter) (key other : String)
    (h : GoodFor hasher model s key) :
    GoodFor hasher model (protocolStep hasher model s other) key := by
  constructor
  · rw [protocolStep_L1]
    exact StandardBloomFilter.contains_mono hasher _ key other h.1
  · intro hm
    rcases protocolStep_L3 hasher model s other with h3 | h3 <;> rw [h3]
    · exact h.2 hm
    · exact StandardBloomFilter.contains_mono hasher _ key other (h.2 hm)

theorem goodFor_populate (hasher : String → Nat) (model : Nat → Nat → Nat → Bool)
    (keys : List String) : ∀ (st : SandwichedLearnedBloomFilter) (key : String),
    GoodFor hasher model st key →
    GoodFor hasher model (populateProtocol hasher model st keys) key := by
  induction keys with
  | nil => intro st key h; exact h
  | cons x t ih =>
    intro st key h
    exact ih _ key (goodFor_step hasher model st key x h)

theorem protocolStep_goodFor_self (hasher : String → Nat)
    (model : Nat → Nat → Nat → Bool) (s : SandwichedLearnedBloomFilter)
    (key : String) (hwf : s.Wf) :
    GoodFor hasher model (protocolStep hasher model s key) key := by
  constructor
  · rw [protocolStep_L1]
    exact StandardBloomFilter.contains_insert_self hasher _ key hwf.1.1 hwf.1.2
  · intro hm
    unfold protocolStep
    simp only [hm, if_false, Bool.false_eq_true]
    exact StandardBloomFilter.contains_insert_self hasher _ key hwf.2.1 hwf.2.2

theorem protocolStep_wf (hasher : String → Nat) (model : Nat → Nat → Nat → Bool)
    (s : SandwichedLearnedBloomFilter) (key : String) (hwf : s.Wf) :
    (protocolStep hasher model s key).Wf := by
  constructor
  · rw [protocolStep_L1]
    exact StandardBloomFilter.wf_insert hasher hwf.1 key
  · rcases protocolStep_L3 hasher model s key with h3 | h3 <;> rw [h3]
    · exact hwf.2
    · exact StandardBloomFilter.wf_insert hasher hwf.2 key

theorem populateProtocol_query_true (hasher : String → Nat)
    (model : Nat → Nat → Nat → Bool) (keys : List String) :
    ∀ (st : SandwichedLearnedBloomFilter) (key : String), st.Wf → key ∈ keys →
    query hasher model (populateProtocol hasher model st keys) key = true := by
  induction keys with
  | nil => intro st key _ hk; simp at hk
  | cons x t ih =>
    intro st key hwf hk
    rcases List.mem_cons.mp hk with h | h
    · subst h
      exact goodFor_query hasher model _ key
        (goodFor_populate hasher model t _ key
          (protocolStep_goodFor_self hasher model st key hwf))
    · exact ih (protocolStep hasher model st x) key
        (protocolStep_wf hasher model st x hwf) h

theorem mkSandwich_wf (s1 k1 s3 k3 : Nat) (hs1 : 0 < s1) (hs3 : 0 < s3) :
    (mkSandwich s1 k1 s3 k3).Wf :=
  ⟨⟨by simp [mkSandwich, StandardBloomFilter.mkFilter], hs1⟩,
   ⟨by simp [mkSandwich, StandardBloomFilter.mkFilter], hs3⟩⟩

end SandwichedLearnedBloomFilter

theorem foldl_ops_memory (hasher : String → Nat) (ops : List (Bool × String)) :
    ∀ st : SandwichedLearnedBloomFilter,
    (ops.foldl
        (fun st p => if p.1 then st.insert_L1 hasher p.2 else st.insert_L3 hasher p.2)
        st).get_memory_bits = st.get_memory_bits := by
  induction ops with
  | nil => intro st; rfl
  | cons p t ih =>
    intro st
    rw [List.foldl_cons, ih]
    by_cases hp : p.1 = true <;>
      simp [hp, SandwichedLearnedBloomFilter.insert_L1,
        SandwichedLearnedBloomFilter.insert_L3,
        SandwichedLearnedBloomFilter.get_memory_bits,
        StandardBloomFilter.get_memory_bits, StandardBloomFilter.insert]

/-- C1: Sandwich no false negatives. For every finite list of true-set
keys populated under the insertion protocol of §4.3 (every key into L1,
and into L3 exactly when the classifier on its features is negative),
`query` answers true on every key of the list, for every base hash and
every classifier, given positive L1 and L3 sizes. -/
theorem sandwich_no_false_negatives (hasher : String → Nat)
    (model : Nat → Nat → Nat → Bool) (s1 k1 s3 k3 : Nat)
    (hs1 : 0 < s1) (hs3 : 0 < s3) (keys : List String) (key : String)
    (hk : key ∈ keys) :
    SandwichedLearnedBloomFilter.query hasher model
      (populateProtocol hasher model
        (SandwichedLearnedBloomFilter.mkSandwich s1 k1 s3 k3) keys) key = true :=
  SandwichedLearnedBloomFilter.populateProtocol_query_true hasher model keys _ key
    (SandwichedLearnedBloomFilter.mkSandwich_wf s1 k1 s3 k3 hs1 hs3) hk

/-- Witness for C1 at a concrete hash, classifier, key list and key. -/
theorem sandwich_no_false_negatives_witness :
    SandwichedLearnedBloomFilter.query egHasher egModelEven
      (populateProtocol egHasher egModelEven
        (SandwichedLearnedBloomFilter.mkSandwich 7 2 5 2) ["ab", "cde"]) "cde"
      = true :=
  sandwich_no_false_negatives egHasher egModelEven 7 2 5 2 (by decide) (by decide)
    ["ab", "cde"] "cde" (by decide)

/-- C2: the benchmark's population loop (main.cpp:83-88) decides L3
membership by `rand() % 100 < 10`, not by the classifier. With a rand
stream whose draws all fail that test and a classifier that is negative
on the key "a", the key is never inserted into L3 (L3 stays exactly as
constructed), and the populated filter then answers false on "a" — a
false negative, contradicting the stated L3 insertion policy. -/
theorem main_population_ignores_classifier :
    egModelNeg (SandwichedLearnedBloomFilter.extract_features "a").1
      (SandwichedLearnedBloomFilter.extract_features "a").2.1
      (SandwichedLearnedBloomFilter.extract_features "a").2.2 = false ∧
    (populateMain egHasher egRand
        (SandwichedLearnedBloomFilter.mkSandwich 10 1 10 1) ["a"]).L3_filter
      = (SandwichedLearnedBloomFilter.mkSandwich 10 1 10 1).L3_filter ∧
    SandwichedLearnedBloomFilter.query egHasher egModelNeg
      (populateMain egHasher egRand
        (SandwichedLearnedBloomFilter.mkSandwich 10 1 10 1) ["a"]) "a" = false := by
  decide

/-- C3: Query protocol steps. For every key, `query` returns false when
the L1 check fails; otherwise returns true when the classifier on the
key's extracted features predicts member; otherwise returns exactly the
L3 check — and nothing else enters the result. -/
theorem query_protocol_steps (hasher : String → Nat)
    (model : Nat → Nat → Nat → Bool) (st : SandwichedLearnedBloomFilter)
    (item : String) :
    SandwichedLearnedBloomFilter.query hasher model st item =
      if st.L1_filter.possibly_contains hasher item then
        if model (SandwichedLearnedBloomFilter.extract_features item).1
            (SandwichedLearnedBloomFilter.extract_features item).2.1
            (SandwichedLearnedBloomFilter.extract_features item).2.2 then true
        else st.L3_filter.possibly_contains hasher item
      else false := by
  unfold SandwichedLearnedBloomFilter.query
  cases h : st.L1_filter.possibly_contains hasher item <;> simp [h]

/-- C4: Standard Bloom filter no false negatives. For every well-formed
filter of positive size and any number of hash functions, after
`insert(item)` followed by any further insertions, `possibly_contains
item` is true. -/
theorem standard_no_false_negatives (hasher : String → Nat)
    (f : StandardBloomFilter) (item : String) (rest : List String)
    (hwf : f.bit_array.length = f.size) (hs : 0 < f.size) :
    (rest.foldl (fun g x => g.insert hasher x)
        (f.insert hasher item)).possibly_contains hasher item = true :=
  StandardBloomFilter.contains_foldl_mono hasher rest _ item
    (StandardBloomFilter.contains_insert_self hasher f item hwf hs)

/-- Witness for C4 at a concrete hash, filter, key and later insertions. -/
theorem standard_no_false_negatives_witness :
    ((["xyz", "q-1"].foldl (fun g x => g.insert egHasher x)
        ((StandardBloomFilter.mkFilter 5 2).insert egHasher "ab")).possibly_contains
      egHasher "ab") = true :=
  standard_no_false_negatives egHasher (StandardBloomFilter.mkFilter 5 2) "ab"
    ["xyz", "q-1"] (by decide) (by decide)

/-- C5: the constructor performs no validation: `StandardBloomFilter(0, 3)`
succeeds and yields an empty bit array with `size = 0`, after which the
hash function no longer lands in `[0, size)` (in the C++ source this is
`% 0`, undefined behaviour), instead of construction being rejected. -/
theorem constructor_accepts_zero_size :
    (StandardBloomFilter.mkFilter 0 3).bit_array = [] ∧
    (StandardBloomFilter.mkFilter 0 3).size = 0 ∧
    (StandardBloomFilter.mkFilter 0 3).num_hashes = 3 ∧
    ¬ sbfHash egHasher (StandardBloomFilter.mkFilter 0 3).size "a" 0
        < (StandardBloomFilter.mkFilter 0 3).size := by
  decide

/-- C6: Insert idempotence. Inserting the same key twice in succession
yields exactly the same filter state as inserting it once, for every
filter state and key. -/
theorem insert_idempotent (hasher : String → Nat) (f : StandardBloomFilter)
    (item : String) :
    (f.insert hasher item).insert hasher item = f.insert hasher item := by
  obtain ⟨b, s, k⟩ := f
  simp only [StandardBloomFilter.insert, StandardBloomFilter.hashIndices]
  rw [StandardBloomFilter.setAll_setAll]

/-- C7: Monotonicity. An insertion never clears a bit (pointwise, every
bit only grows in the false-below-true order) and never decreases the
number of set bits. -/
theorem insert_bit_monotonicity (hasher : String → Nat) (f : StandardBloomFilter)
    (item : String) (j : Nat) :
    f.bit_array.getD j false ≤ (f.insert hasher item).bit_array.getD j false ∧
    f.bit_array.count true ≤ (f.insert hasher item).bit_array.count true := by
  obtain ⟨b, s, k⟩ := f
  simp only [StandardBloomFilter.insert]
  constructor
  · cases hb : b.getD j false
    · exact Bool.false_le _
    · rw [StandardBloomFilter.getD_setAll_mono _ _ _ hb]
  · exact StandardBloomFilter.count_setAll _ _

/-- C8: Memory accounting. A standard filter constructed with size `s`
reports `s` bits after any sequence of insertions, and a sandwiched
filter constructed with sizes `s1`, `s3` reports exactly `s1 + s3` after
any sequence of L1/L3 insertions; the classifier contributes nothing. -/
theorem memory_accounting_exact (hasher : String → Nat) (s k : Nat)
    (keys : List String) (s1 k1 s3 k3 : Nat) (ops : List (Bool × String)) :
    (keys.foldl (fun g x => g.insert hasher x)
        (StandardBloomFilter.mkFilter s k)).get_memory_bits = s ∧
    (ops.foldl
        (fun st p => if p.1 then st.insert_L1 hasher p.2 else st.insert_L3 hasher p.2)
        (SandwichedLearnedBloomFilter.mkSandwich s1 k1 s3 k3)).get_memory_bits
      = s1 + s3 := by
  constructor
  · exact StandardBloomFilter.foldl_insert_size hasher keys _
  · rw [foldl_ops_memory hasher ops _]
    rfl

/-- C9: Frame isolation. `insert_L1` is exactly an insertion into the L1
component with L3 untouched, and `insert_L3` is exactly an insertion into
the L3 component with L1 untouched; neither consults the classifier or
the feature extractor (their results are fully determined by the
component insertion alone). -/
theorem insertion_frame_isolation (hasher : String → Nat)
    (st : SandwichedLearnedBloomFilter) (item : String) :
    st.insert_L1 hasher item
      = { L1_filter := st.L1_filter.insert hasher item, L3_filter := st.L3_filter } ∧
    st.insert_L3 hasher item
      = { L1_filter := st.L1_filter, L3_filter := st.L3_filter.insert hasher item } :=
  ⟨rfl, rfl⟩

/-- C10: Empty-filter behaviour. A freshly constructed filter with
positive size and at least one hash function answers false on every key,
while with zero hash functions the check loop is empty and it answers
true on every key. -/
theorem fresh_filter_behaviour (hasher : String → Nat) (s k : Nat)
    (item : String) (hs : 0 < s) (hk : 1 ≤ k) :
    (StandardBloomFilter.mkFilter s k).possibly_contains hasher item = false ∧
    (StandardBloomFilter.mkFilter s 0).possibly_contains hasher item = true := by
  constructor
  · simp only [StandardBloomFilter.possibly_contains, StandardBloomFilter.mkFilter,
      List.all_eq_false]
    refine ⟨0, List.mem_range.mpr hk, ?_⟩
    rw [StandardBloomFilter.getD_replicate_false]
    simp
  · rfl

/-- Witness for C10 at a concrete hash, sizes and key. -/
theorem fresh_filter_behaviour_witness :
    (StandardBloomFilter.mkFilter 3 2).possibly_contains egHasher "ab" = false ∧
    (StandardBloomFilter.mkFilter 3 0).possibly_contains egHasher "ab" = true :=
  fresh_filter_behaviour egHasher 3 2 "ab" (by decide) (by decide)
